import Mathlib

/-!
# Verification of the crosswatch camera discovery and caching pipeline

Shallow embedding of `src/js/camera.js` (the `CameraModule` IIFE).

Modelling conventions:
* JS numbers are abstracted as exact rationals plus a `nan` marker
  (`JSNum`); binary-float rounding is abstracted away, which is sound for
  every property below because none depends on the magnitude of a parsed
  coordinate, only on its presence, nullness, zeroness or NaN-ness.
* `DOMParser` is abstracted: an HTML page enters the model already as the
  element tree the parser queries.  A list page is the sequence of its
  `.cam-list-container` elements (`ListItem`); a detail page is the
  sequence of `div` text contents plus the optional `h1` text and the
  optional `.video_obj` element with its optional `data-src` attribute
  (`DetailDoc`).  `getAttribute` returning `null` is `Option.none`.
* JS `Map` objects are insertion-ordered association lists with `mapGet`,
  `mapSet`, `mapDelete` mirroring `get`/`set`/`delete`.
* The async operations interleave only at `await` suspension points, so
  each synchronous block is one atomic step of a transition function
  `step`: an invocation (cache check, pending check, fetch initiation,
  pending registration) is one step, and the continuation after the
  network response (parse, cache writes, `finally` deregistration) is
  another.  `Date.now()` is an explicit clock argument.
* JS whitespace trimming is modelled over the ASCII whitespace characters
  that occur in the scraped pages.
-/

set_option linter.unusedVariables false

/-- JS number abstracted: exact rational or NaN. -/
inductive JSNum where
  | nan
  | num (q : ℚ)
deriving DecidableEq

/-- JS truthiness of a number: `0` and `NaN` are falsy. -/
def JSNum.truthy : JSNum → Bool
  | .nan => false
  | .num q => q != 0

/-- JS truthiness of a `number | null` value: `null` is falsy. -/
def truthyOpt : Option JSNum → Bool
  | none => false
  | some v => v.truthy

/-- Whitespace recognised by `String.prototype.trim` and `\s`
(ASCII subset occurring in the scraped pages). -/
def isJSWhitespace (c : Char) : Bool :=
  c == ' ' || c == '\t' || c == '\n' || c == '\r'

/-- `text.trim()`. -/
def trimChars (s : List Char) : List Char :=
  ((s.dropWhile isJSWhitespace).reverse.dropWhile isJSWhitespace).reverse

/-- Character class `[\d.]` of the coordinate regexes. -/
def isDigitOrDot (c : Char) : Bool := c.isDigit || c == '.'

/-- Decimal digit-string value. -/
def digitsToNat (ds : List Char) : ℕ :=
  ds.foldl (fun n c => 10 * n + (c.toNat - 48)) 0

/-- `parseFloat` restricted to the strings the coordinate regexes can
capture: a non-empty run of digits and dots.  Follows the ECMA
`StrDecimalLiteral` longest-prefix rule: `"12.3.4"` parses as `12.3`,
`"5."` as `5`, a bare `"."` (no digit) is `NaN`. -/
def parseFloatDD (s : List Char) : JSNum :=
  match s with
  | [] => .nan
  | c :: rest =>
    if c == '.' then
      let frac := rest.takeWhile Char.isDigit
      if frac.isEmpty then .nan
      else .num (Rat.divInt (digitsToNat frac) (10 ^ frac.length))
    else
      let ip := (c :: rest).takeWhile Char.isDigit
      match (c :: rest).drop ip.length with
      | '.' :: r =>
        let frac := r.takeWhile Char.isDigit
        .num (Rat.divInt (digitsToNat ip * 10 ^ frac.length + digitsToNat frac)
          (10 ^ frac.length))
      | _ => .num (Rat.divInt (digitsToNat ip) 1)

/-- The latitude label `緯度:` of `parseCameraDetailHTML`. -/
def latLabel : List Char := "緯度:".data

/-- The longitude label `經度:` of `parseCameraDetailHTML`. -/
def lonLabel : List Char := "經度:".data

/-- `text.match(/^LABEL\s*([\d.]+)/)`: the text must start with the label,
then optional whitespace, then at least one digit-or-dot character; the
returned characters are the capture group. -/
def matchCoord (label : List Char) (text : List Char) : Option (List Char) :=
  if label.isPrefixOf text then
    let after := (text.drop label.length).dropWhile isJSWhitespace
    let ds := after.takeWhile isDigitOrDot
    if ds.isEmpty then none else some ds
  else none

/-- The pattern `/cam/` of the list parser's href regex. -/
def camPat : List Char := "/cam/".data

/-- `href.match(/\/cam\/(.+)$/)`: first occurrence of `/cam/` followed by a
non-empty tail reaching the end of the string with no newline (`.` does
not match `\n` and `$` anchors at the end); the capture is that tail. -/
def matchCamId : List Char → Option (List Char)
  | [] => none
  | c :: cs =>
    if camPat.isPrefixOf (c :: cs) then
      let tl := (c :: cs).drop 5
      if tl.isEmpty || tl.any (· == '\n') then matchCamId cs else some tl
    else matchCamId cs

/-- `s.replace(pat, '')` for a string pattern: JS `replace` removes only
the first occurrence, or returns the string unchanged if absent. -/
def replaceFirst (pat : List Char) : List Char → List Char
  | [] => []
  | c :: cs =>
    if pat.isPrefixOf (c :: cs) then (c :: cs).drop pat.length
    else c :: replaceFirst pat cs

/-- A camera record: the object shape shared by summary-cache entries
(`lat`/`lon` absent until enrichment) and detail-cache entries. -/
structure CameraRec where
  id : String
  name : String
  snapshotUrl : String
  liveFeedUrl : String
  lat : Option JSNum
  lon : Option JSNum
deriving DecidableEq

/-- Result shape of `parseCameraDetailHTML`. -/
structure ParsedDetail where
  lat : Option JSNum
  lon : Option JSNum
  name : String
  liveFeedUrl : String
deriving DecidableEq

/-- A detail page after DOM parsing: `div` text contents in document
order, optional `h1` text, optional `.video_obj` element carrying an
optional `data-src` attribute. -/
structure DetailDoc where
  divs : List String
  h1 : Option String
  videoObj : Option (Option String)
deriving DecidableEq

/-- One `.cam-list-container` of a list page: optional first `a` element
(with its optional `href`), optional first `img` element (with its
optional `src` and `data-src`), optional `.w3-display-bottomright` text. -/
structure ListItem where
  link : Option (Option String)
  img : Option (Option String × Option String)
  desc : Option String
deriving DecidableEq

/-- `SNAPSHOT_BASE` constant of the module. -/
def SNAPSHOT_BASE : String := "https://c01.twipcam.com/cam/snapshot/"

/-- The deterministic snapshot URL `${SNAPSHOT_BASE}${camId}.jpg`. -/
def snapshotPath (camId : String) : String := SNAPSHOT_BASE ++ camId ++ ".jpg"

/-- Body of the `containers.forEach` loop of `parseCameraListHTML`:
skip a container missing its link or image (`if (!link || !img) return`)
or whose href does not match (`if (!camIdMatch) return`), otherwise push
one summary with the source's fallbacks (`desc ? … : camId`,
`getAttribute('src') || default`, `getAttribute('data-src') || ''`). -/
def listScanStep (cams : List CameraRec) (item : ListItem) : List CameraRec :=
  match item.link, item.img with
  | some hrefAttr, some imgAttrs =>
    let href := hrefAttr.getD ""
    match matchCamId href.data with
    | none => cams
    | some cid =>
      let camId := String.mk cid
      let name := match item.desc with
        | some t => String.mk (trimChars t.data)
        | none => camId
      let snapshotUrl := match imgAttrs.1 with
        | some s => if s ≠ "" then s else snapshotPath camId
        | none => snapshotPath camId
      let dataSrc := imgAttrs.2.getD ""
      cams ++ [{ id := camId, name := name, snapshotUrl := snapshotUrl,
                 liveFeedUrl := dataSrc, lat := none, lon := none }]
  | _, _ => cams

/-- `parseCameraListHTML`: fold over the containers pushing one summary
per container that has a link, an image and a matching href. -/
def parseCameraListHTML (items : List ListItem) : List CameraRec :=
  items.foldl listScanStep []

/-- Body of the `allDivs.forEach` loop of `parseCameraDetailHTML`: each
matching container reassigns the corresponding coordinate variable. -/
def detailScanStep (acc : Option JSNum × Option JSNum) (divText : String) :
    Option JSNum × Option JSNum :=
  let text := trimChars divText.data
  (match matchCoord latLabel text with
   | some ds => some (parseFloatDD ds)
   | none => acc.1,
   match matchCoord lonLabel text with
   | some ds => some (parseFloatDD ds)
   | none => acc.2)

/-- `parseCameraDetailHTML`. -/
def parseCameraDetailHTML (d : DetailDoc) : ParsedDetail :=
  let coords := d.divs.foldl detailScanStep (none, none)
  let name := match d.h1 with
    | some t => String.mk (trimChars (replaceFirst "即時影像".data t.data))
    | none => ""
  let liveFeedUrl := match d.videoObj with
    | some attr => attr.getD ""
    | none => ""
  { lat := coords.1, lon := coords.2, name := name, liveFeedUrl := liveFeedUrl }

/-- JS `Map.get`. -/
def mapGet {α : Type} (k : String) : List (String × α) → Option α
  | [] => none
  | (k₁, v) :: rest => if k₁ = k then some v else mapGet k rest

/-- JS `Map.has`. -/
def mapHas {α : Type} (k : String) (m : List (String × α)) : Bool :=
  (mapGet k m).isSome

/-- JS `Map.set`: update in place keeping insertion order, else append. -/
def mapSet {α : Type} (k : String) (v : α) : List (String × α) → List (String × α)
  | [] => [(k, v)]
  | (k₁, v₁) :: rest =>
    if k₁ = k then (k₁, v) :: rest else (k₁, v₁) :: mapSet k v rest

/-- JS `Map.delete`: remove the entry for the key, if any. -/
def mapDelete {α : Type} (k : String) : List (String × α) → List (String × α)
  | [] => []
  | (k₁, v₁) :: rest =>
    if k₁ = k then rest else (k₁, v₁) :: mapDelete k rest

/-- Digit-by-digit rendering, most significant first; the first argument
is structural-recursion fuel (any bound on the number of digits). -/
def natReprAux : ℕ → ℕ → List Char
  | 0, _ => []
  | fuel + 1, n =>
    if n = 0 then [] else natReprAux fuel (n / 10) ++ [Nat.digitChar (n % 10)]

/-- Decimal rendering of a natural number, as JS number-to-string
conversion produces for the integers used here (`Date.now()`,
`toFixed` parts). -/
def natRepr (n : ℕ) : List Char :=
  if n = 0 then ['0'] else natReprAux n n

/-- `natRepr` as a `String`. -/
def natReprStr (n : ℕ) : String := String.mk (natRepr n)

/-- Zero-padding to four digits for the fractional part of `toFixed(4)`. -/
def pad4 (m : ℕ) : String :=
  String.mk (List.replicate (4 - (natRepr m).length) '0' ++ natRepr m)

/-- `q.toFixed(4)` (ECMA `Number.prototype.toFixed`): the sign of a
negative argument is emitted first, then the absolute value rounded to
the nearest multiple of `1/10^4`, ties away from zero, written with
exactly four fractional digits.  The rounded numerator
`⌊|q| * 10^4 + 1/2⌋` is computed on the exact fraction as
`(|num| * 20000 + den) / (2 * den)` in natural-number division. -/
def toFixed4 (q : ℚ) : String :=
  let sign := if q.num < 0 then "-" else ""
  let a : ℕ := (q.num.natAbs * 20000 + q.den) / (2 * q.den)
  sign ++ natReprStr (a / 10000) ++ "." ++ pad4 (a % 10000)

/-- The coalescing key of `fetchCamerasByCoordinate`:
`${lat.toFixed(4)},${lon.toFixed(4)}`. -/
def listKey (lat lon : ℚ) : String := toFixed4 lat ++ "," ++ toFixed4 lon

/-- The coalescing key of `fetchCameraDetail`: `detail_${camId}`. -/
def detailKey (camId : String) : String := "detail_" ++ camId

/-- `getSnapshotUrl`, with `Date.now()` as an explicit clock argument. -/
def getSnapshotUrl (camId : String) (now : ℕ) : String :=
  snapshotPath camId ++ "?t=" ++ natReprStr now

/-- The `cameraData` object built by `fetchCameraDetail` on a successful
coordinate resolution. -/
def mkCameraData (camId : String) (det : ParsedDetail) : CameraRec :=
  { id := camId
    lat := det.lat
    lon := det.lon
    name := if det.name ≠ "" then det.name else camId
    liveFeedUrl := det.liveFeedUrl
    snapshotUrl := snapshotPath camId }

/-- The summary-cache merge loop of `fetchCamerasByCoordinate`:
`if (!cameraCache.has(cam.id)) cameraCache.set(cam.id, cam)`. -/
def mergeSummaries (cache : List (String × CameraRec)) (cams : List CameraRec) :
    List (String × CameraRec) :=
  cams.foldl (fun c cam => if mapHas cam.id c then c else mapSet cam.id cam c) cache

/-- The summary-cache enrichment block of `fetchCameraDetail`: if the id
is in the summary cache, assign `lat`/`lon` unconditionally and
overwrite `liveFeedUrl`/`name` exactly when the newly parsed value is
truthy (non-empty). -/
def enrichSummary (cache : List (String × CameraRec)) (camId : String)
    (det : ParsedDetail) : List (String × CameraRec) :=
  match mapGet camId cache with
  | none => cache
  | some existing =>
    mapSet camId
      { existing with
        lat := det.lat
        lon := det.lon
        liveFeedUrl := if det.liveFeedUrl ≠ "" then det.liveFeedUrl else existing.liveFeedUrl
        name := if det.name ≠ "" then det.name else existing.name }
      cache

/-- What one in-flight operation is: a list query or a detail query. -/
inductive OpKind where
  | list
  | detail (camId : String)
deriving DecidableEq

/-- One entry of the `pendingRequests` table: the shared promise is
modelled by an operation identifier; callers holding the same identifier
await the same settlement. -/
structure PendingOp where
  opId : ℕ
  kind : OpKind
deriving DecidableEq

/-- The module-level mutable state: the two caches, the pending-request
table, a fresh-promise counter and the number of proxy fetches initiated
so far (the call count of `fetchWithProxy`). -/
structure SysState where
  cameraCache : List (String × CameraRec)
  coordCache : List (String × CameraRec)
  pending : List (String × PendingOp)
  nextOp : ℕ
  fetches : ℕ
deriving DecidableEq

/-- The initial module state. -/
def initState : SysState :=
  { cameraCache := [], coordCache := [], pending := [], nextOp := 0, fetches := 0 }

/-- The network's answer to a proxy fetch, already DOM-parsed according
to the page shape the operation requests: an error (transport or HTTP),
a list page, or a detail page. -/
inductive FetchOutcome where
  | err
  | listPage (items : List ListItem)
  | detailPage (d : DetailDoc)
deriving DecidableEq

/-- An atomic synchronous block: a caller invoking one of the four public
operations, or the continuation of a pending fetch once the network
settles. -/
inductive Event where
  | invokeList (lat lon : ℚ)
  | invokeDetail (camId : String)
  | complete (key : String) (outcome : FetchOutcome)
  | getCached (camId : String)
  | getSnapshot (camId : String) (now : ℕ)
deriving DecidableEq

/-- What the step's caller observes: how an invocation returned, how a
pending operation settled, or the value of a read-only helper. -/
inductive StepObs where
  | cachedHit (v : CameraRec)
  | joined (opId : ℕ)
  | started (opId : ℕ)
  | listDone (r : Option (List CameraRec))
  | detailDone (r : Option (Option CameraRec))
  | got (r : Option CameraRec)
  | url (u : String)
  | stutter
deriving DecidableEq

/-- One atomic step of the module.  Each branch is the literal synchronous
block of `camera.js` between suspension points:
* `invokeList`/`invokeDetail` run from function entry up to and including
  `pendingRequests.set` (the proxy fetch is initiated inside that block,
  counted in `fetches`), or return early on a cache or pending hit;
* `complete key outcome` runs the rest of the registered async body once
  its awaited fetch settles, including the `finally` deregistration;
  completing a key with no registered operation, or with a page shape the
  operation does not request, is a stutter. -/
def step (s : SysState) : Event → SysState × StepObs
  | .invokeList lat lon =>
    let key := listKey lat lon
    match mapGet key s.pending with
    | some p => (s, .joined p.opId)
    | none =>
      ({ s with
         pending := mapSet key { opId := s.nextOp, kind := .list } s.pending
         nextOp := s.nextOp + 1
         fetches := s.fetches + 1 }, .started s.nextOp)
  | .invokeDetail camId =>
    match mapGet camId s.coordCache with
    | some r => (s, .cachedHit r)
    | none =>
      let key := detailKey camId
      match mapGet key s.pending with
      | some p => (s, .joined p.opId)
      | none =>
        ({ s with
           pending := mapSet key { opId := s.nextOp, kind := .detail camId } s.pending
           nextOp := s.nextOp + 1
           fetches := s.fetches + 1 }, .started s.nextOp)
  | .complete key outcome =>
    match mapGet key s.pending with
    | none => (s, .stutter)
    | some p =>
      match p.kind, outcome with
      | .list, .err =>
        ({ s with pending := mapDelete key s.pending }, .listDone none)
      | .list, .listPage items =>
        let cams := parseCameraListHTML items
        ({ s with
           cameraCache := mergeSummaries s.cameraCache cams
           pending := mapDelete key s.pending }, .listDone (some cams))
      | .detail camId, .err =>
        ({ s with pending := mapDelete key s.pending }, .detailDone none)
      | .detail camId, .detailPage d =>
        let det := parseCameraDetailHTML d
        if truthyOpt det.lat && truthyOpt det.lon then
          ({ s with
             coordCache := mapSet camId (mkCameraData camId det) s.coordCache
             cameraCache := enrichSummary s.cameraCache camId det
             pending := mapDelete key s.pending },
           .detailDone (some (some (mkCameraData camId det))))
        else
          ({ s with pending := mapDelete key s.pending }, .detailDone (some none))
      | _, _ => (s, .stutter)
  | .getCached camId =>
    (s, .got (match mapGet camId s.coordCache with
              | some r => some r
              | none => mapGet camId s.cameraCache))
  | .getSnapshot camId now => (s, .url (getSnapshotUrl camId now))

/-- Module states reachable from a fresh page load by any interleaving of
operations and network settlements. -/
inductive Reachable : SysState → Prop
  | init : Reachable initState
  | step (s : SysState) (e : Event) : Reachable s → Reachable (step s e).1

theorem mapGet_mem {α : Type} {k : String} {v : α} {m : List (String × α)}
    (h : mapGet k m = some v) : (k, v) ∈ m := by
  induction m with
  | nil => simp [mapGet] at h
  | cons e rest ih =>
    obtain ⟨k₁, v₁⟩ := e
    rw [mapGet] at h
    split at h
    · next heq =>
      injection h with h
      subst heq; subst h
      exact List.mem_cons_self _ _
    · exact List.mem_cons_of_mem _ (ih h)

theorem mapGet_eq_none_iff {α : Type} {k : String} {m : List (String × α)} :
    mapGet k m = none ↔ k ∉ m.map Prod.fst := by
  induction m with
  | nil => simp [mapGet]
  | cons e rest ih =>
    obtain ⟨k₁, v₁⟩ := e
    rw [mapGet]
    split
    · next heq => simp [heq]
    · next hne => simpa [hne, Ne.symm hne] using ih

theorem mapSet_of_get_none {α : Type} {k : String} (v : α) {m : List (String × α)}
    (h : mapGet k m = none) : mapSet k v m = m ++ [(k, v)] := by
  induction m with
  | nil => rfl
  | cons e rest ih =>
    obtain ⟨k₁, v₁⟩ := e
    rw [mapGet] at h
    rw [mapSet]
    split at h
    · exact absurd h (by simp)
    · next hne => rw [if_neg hne, ih h]; rfl

theorem mapGet_mapSet_self {α : Type} {k : String} (v : α) (m : List (String × α)) :
    mapGet k (mapSet k v m) = some v := by
  induction m with
  | nil => simp [mapSet, mapGet]
  | cons e rest ih =>
    obtain ⟨k₁, v₁⟩ := e
    rw [mapSet]
    split
    · next heq => rw [mapGet, if_pos heq]
    · next hne => rw [mapGet, if_neg hne]; exact ih

theorem mapGet_mapSet_ne {α : Type} {k₀ k : String} (hne : k₀ ≠ k) (v : α)
    (m : List (String × α)) : mapGet k₀ (mapSet k v m) = mapGet k₀ m := by
  induction m with
  | nil =>
    show mapGet k₀ [(k, v)] = none
    rw [mapGet, if_neg (fun h => hne h.symm)]
    rfl
  | cons e rest ih =>
    obtain ⟨k₁, v₁⟩ := e
    rw [mapSet]
    split
    · next heq =>
      rw [mapGet, mapGet]
      split
      · next h₁ => exact absurd (h₁.symm.trans heq) hne
      · rfl
    · rw [mapGet, mapGet]
      split
      · rfl
      · exact ih

theorem mem_mapSet {α : Type} {e : String × α} {k : String} {v : α}
    {m : List (String × α)} (h : e ∈ mapSet k v m) : e = (k, v) ∨ e ∈ m := by
  induction m with
  | nil => simpa [mapSet] using h
  | cons e₁ rest ih =>
    obtain ⟨k₁, v₁⟩ := e₁
    rw [mapSet] at h
    split at h
    · next heq =>
      rcases List.mem_cons.mp h with h | h
      · left; rw [h, heq]
      · right; exact List.mem_cons_of_mem _ h
    · rcases List.mem_cons.mp h with h | h
      · right; rw [h]; exact List.mem_cons_self _ _
      · rcases ih h with h | h
        · exact Or.inl h
        · exact Or.inr (List.mem_cons_of_mem _ h)

theorem mapDelete_sublist {α : Type} (k : String) (m : List (String × α)) :
    (mapDelete k m).Sublist m := by
  induction m with
  | nil => exact List.Sublist.refl _
  | cons e rest ih =>
    obtain ⟨k₁, v₁⟩ := e
    rw [mapDelete]
    split
    · exact List.sublist_cons_of_sublist _ (List.Sublist.refl _)
    · exact List.Sublist.cons₂ _ ih

theorem mem_mapDelete {α : Type} {e : String × α} {k : String} {m : List (String × α)}
    (h : e ∈ mapDelete k m) : e ∈ m :=
  (mapDelete_sublist k m).mem h

theorem mem_mapDelete_key_ne {α : Type} {e : String × α} {k : String}
    {m : List (String × α)} (hnd : (m.map Prod.fst).Nodup)
    (h : e ∈ mapDelete k m) : e.1 ≠ k := by
  induction m with
  | nil => simp [mapDelete] at h
  | cons e₁ rest ih =>
    obtain ⟨k₁, v₁⟩ := e₁
    rw [mapDelete] at h
    rw [List.map_cons, List.nodup_cons] at hnd
    split at h
    · next heq =>
      intro hek
      apply hnd.1
      have hm : e.1 ∈ rest.map Prod.fst := List.mem_map_of_mem Prod.fst h
      rwa [hek, ← heq] at hm
    · next hne =>
      rcases List.mem_cons.mp h with h | h
      · rw [h]; exact hne
      · exact ih hnd.2 h

theorem mapGet_mapDelete_ne {α : Type} {k₀ k : String} (hne : k₀ ≠ k)
    (m : List (String × α)) : mapGet k₀ (mapDelete k m) = mapGet k₀ m := by
  induction m with
  | nil => rfl
  | cons e rest ih =>
    obtain ⟨k₁, v₁⟩ := e
    rw [mapDelete]
    split
    · next heq =>
      rw [mapGet]
      split
      · next h₁ => exact absurd (h₁.symm.trans heq) hne
      · rfl
    · rw [mapGet, mapGet]
      split
      · rfl
      · exact ih

/-- The coalescer invariant: the pending-request table never holds two
entries for the same key, every pending detail operation is registered
under its `detail_`-prefixed key, and an id with a pending detail
operation is not yet in the detail cache. -/
def PendingInv (s : SysState) : Prop :=
  (s.pending.map Prod.fst).Nodup ∧
  ∀ e ∈ s.pending, ∀ camId, e.2.kind = OpKind.detail camId →
    e.1 = detailKey camId ∧ mapGet camId s.coordCache = none

theorem step_invokeList_join {s : SysState} {lat lon : ℚ} {p : PendingOp}
    (hp : mapGet (listKey lat lon) s.pending = some p) :
    step s (Event.invokeList lat lon) = (s, StepObs.joined p.opId) := by
  simp only [step]
  rw [hp]

theorem step_invokeList_start {s : SysState} {lat lon : ℚ}
    (hp : mapGet (listKey lat lon) s.pending = none) :
    step s (Event.invokeList lat lon) =
      ({ s with
         pending := mapSet (listKey lat lon) { opId := s.nextOp, kind := OpKind.list } s.pending
         nextOp := s.nextOp + 1
         fetches := s.fetches + 1 }, StepObs.started s.nextOp) := by
  simp only [step]
  rw [hp]

theorem step_invokeDetail_hit {s : SysState} {camId : String} {r : CameraRec}
    (hc : mapGet camId s.coordCache = some r) :
    step s (Event.invokeDetail camId) = (s, StepObs.cachedHit r) := by
  simp only [step]
  rw [hc]

theorem step_invokeDetail_join {s : SysState} {camId : String} {p : PendingOp}
    (hc : mapGet camId s.coordCache = none)
    (hp : mapGet (detailKey camId) s.pending = some p) :
    step s (Event.invokeDetail camId) = (s, StepObs.joined p.opId) := by
  simp only [step]
  rw [hc]
  simp only
  rw [hp]

theorem step_invokeDetail_start {s : SysState} {camId : String}
    (hc : mapGet camId s.coordCache = none)
    (hp : mapGet (detailKey camId) s.pending = none) :
    step s (Event.invokeDetail camId) =
      ({ s with
         pending := mapSet (detailKey camId) { opId := s.nextOp, kind := OpKind.detail camId } s.pending
         nextOp := s.nextOp + 1
         fetches := s.fetches + 1 }, StepObs.started s.nextOp) := by
  simp only [step]
  rw [hc]
  simp only
  rw [hp]

theorem step_complete_missing {s : SysState} {key : String} {outcome : FetchOutcome}
    (hp : mapGet key s.pending = none) :
    step s (Event.complete key outcome) = (s, StepObs.stutter) := by
  simp only [step]
  rw [hp]

theorem step_complete_list_err {s : SysState} {key : String} {op : ℕ}
    (hp : mapGet key s.pending = some { opId := op, kind := OpKind.list }) :
    step s (Event.complete key FetchOutcome.err) =
      ({ s with pending := mapDelete key s.pending }, StepObs.listDone none) := by
  simp only [step]
  rw [hp]

theorem step_complete_list_page {s : SysState} {key : String} {op : ℕ}
    {items : List ListItem}
    (hp : mapGet key s.pending = some { opId := op, kind := OpKind.list }) :
    step s (Event.complete key (FetchOutcome.listPage items)) =
      ({ s with
         cameraCache := mergeSummaries s.cameraCache (parseCameraListHTML items)
         pending := mapDelete key s.pending },
       StepObs.listDone (some (parseCameraListHTML items))) := by
  simp only [step]
  rw [hp]

theorem step_complete_list_mismatch {s : SysState} {key : String} {op : ℕ}
    {d : DetailDoc}
    (hp : mapGet key s.pending = some { opId := op, kind := OpKind.list }) :
    step s (Event.complete key (FetchOutcome.detailPage d)) = (s, StepObs.stutter) := by
  simp only [step]
  rw [hp]

theorem step_complete_detail_err {s : SysState} {key : String} {op : ℕ}
    {camId : String}
    (hp : mapGet key s.pending = some { opId := op, kind := OpKind.detail camId }) :
    step s (Event.complete key FetchOutcome.err) =
      ({ s with pending := mapDelete key s.pending }, StepObs.detailDone none) := by
  simp only [step]
  rw [hp]

theorem step_complete_detail_mismatch {s : SysState} {key : String} {op : ℕ}
    {camId : String} {items : List ListItem}
    (hp : mapGet key s.pending = some { opId := op, kind := OpKind.detail camId }) :
    step s (Event.complete key (FetchOutcome.listPage items)) = (s, StepObs.stutter) := by
  simp only [step]
  rw [hp]

theorem step_complete_detail_page_pos {s : SysState} {key : String} {op : ℕ}
    {camId : String} {d : DetailDoc}
    (hp : mapGet key s.pending = some { opId := op, kind := OpKind.detail camId })
    (ht : (truthyOpt (parseCameraDetailHTML d).lat &&
           truthyOpt (parseCameraDetailHTML d).lon) = true) :
    step s (Event.complete key (FetchOutcome.detailPage d)) =
      ({ s with
         coordCache := mapSet camId (mkCameraData camId (parseCameraDetailHTML d)) s.coordCache
         cameraCache := enrichSummary s.cameraCache camId (parseCameraDetailHTML d)
         pending := mapDelete key s.pending },
       StepObs.detailDone (some (some (mkCameraData camId (parseCameraDetailHTML d))))) := by
  simp only [step]
  rw [hp]
  simp only [ht, if_true]

theorem step_complete_detail_page_neg {s : SysState} {key : String} {op : ℕ}
    {camId : String} {d : DetailDoc}
    (hp : mapGet key s.pending = some { opId := op, kind := OpKind.detail camId })
    (ht : (truthyOpt (parseCameraDetailHTML d).lat &&
           truthyOpt (parseCameraDetailHTML d).lon) = false) :
    step s (Event.complete key (FetchOutcome.detailPage d)) =
      ({ s with pending := mapDelete key s.pending }, StepObs.detailDone (some none)) := by
  simp only [step]
  rw [hp]
  simp only [ht, Bool.false_eq_true, if_false]

theorem step_getCached_eq (s : SysState) (camId : String) :
    step s (Event.getCached camId) =
      (s, StepObs.got (match mapGet camId s.coordCache with
                       | some r => some r
                       | none => mapGet camId s.cameraCache)) := rfl

theorem step_getSnapshot_eq (s : SysState) (camId : String) (now : ℕ) :
    step s (Event.getSnapshot camId now) = (s, StepObs.url (getSnapshotUrl camId now)) := rfl

theorem pendingInv_step {s : SysState} (e : Event) (ih : PendingInv s) :
    PendingInv (step s e).1 := by
  obtain ⟨hnd, hdet⟩ := ih
  have hKeep : ∀ key, PendingInv { s with pending := mapDelete key s.pending } := by
    intro key
    refine ⟨hnd.sublist ((mapDelete_sublist key s.pending).map Prod.fst), ?_⟩
    intro e' he' camId hkind
    exact hdet e' (mem_mapDelete he') camId hkind
  cases e with
  | invokeList lat lon =>
    cases hp : mapGet (listKey lat lon) s.pending with
    | some p => rw [step_invokeList_join hp]; exact ⟨hnd, hdet⟩
    | none =>
      rw [step_invokeList_start hp]
      refine ⟨?_, ?_⟩
      · show (List.map Prod.fst (mapSet (listKey lat lon) _ s.pending)).Nodup
        rw [mapSet_of_get_none _ hp, List.map_append, List.nodup_append]
        exact ⟨hnd, List.nodup_singleton _, by
          simpa using mapGet_eq_none_iff.mp hp⟩
      · intro e' he' camId hkind
        rcases mem_mapSet he' with h | h
        · subst h; cases hkind
        · exact hdet e' h camId hkind
  | invokeDetail camId₀ =>
    cases hc : mapGet camId₀ s.coordCache with
    | some r => rw [step_invokeDetail_hit hc]; exact ⟨hnd, hdet⟩
    | none =>
      cases hp : mapGet (detailKey camId₀) s.pending with
      | some p => rw [step_invokeDetail_join hc hp]; exact ⟨hnd, hdet⟩
      | none =>
        rw [step_invokeDetail_start hc hp]
        refine ⟨?_, ?_⟩
        · show (List.map Prod.fst (mapSet (detailKey camId₀) _ s.pending)).Nodup
          rw [mapSet_of_get_none _ hp, List.map_append, List.nodup_append]
          exact ⟨hnd, List.nodup_singleton _, by
            simpa using mapGet_eq_none_iff.mp hp⟩
        · intro e' he' camId hkind
          rcases mem_mapSet he' with h | h
          · subst h
            injection hkind with hkind
            subst hkind
            exact ⟨rfl, hc⟩
          · exact hdet e' h camId hkind
  | complete key outcome =>
    cases hp : mapGet key s.pending with
    | none => rw [step_complete_missing hp]; exact ⟨hnd, hdet⟩
    | some p =>
      obtain ⟨op, kind⟩ := p
      cases kind with
      | list =>
        cases outcome with
        | err => rw [step_complete_list_err hp]; exact hKeep key
        | listPage items => rw [step_complete_list_page hp]; exact hKeep key
        | detailPage d => rw [step_complete_list_mismatch hp]; exact ⟨hnd, hdet⟩
      | detail camId₁ =>
        cases outcome with
        | err => rw [step_complete_detail_err hp]; exact hKeep key
        | listPage items => rw [step_complete_detail_mismatch hp]; exact ⟨hnd, hdet⟩
        | detailPage d =>
          have hkey : key = detailKey camId₁ :=
            (hdet (key, { opId := op, kind := OpKind.detail camId₁ }) (mapGet_mem hp) camId₁ rfl).1
          cases ht : (truthyOpt (parseCameraDetailHTML d).lat &&
                     truthyOpt (parseCameraDetailHTML d).lon) with
          | false => rw [step_complete_detail_page_neg hp ht]; exact hKeep key
          | true =>
            rw [step_complete_detail_page_pos hp ht]
            refine ⟨hnd.sublist ((mapDelete_sublist key s.pending).map Prod.fst), ?_⟩
            intro e' he' camId hkind
            have hmem := mem_mapDelete he'
            have hne := mem_mapDelete_key_ne hnd he'
            obtain ⟨hk, hc⟩ := hdet e' hmem camId hkind
            refine ⟨hk, ?_⟩
            have hcam : camId ≠ camId₁ := by
              intro heq
              exact hne (by rw [hk, heq, hkey])
            show mapGet camId (mapSet camId₁ _ s.coordCache) = none
            rw [mapGet_mapSet_ne hcam]
            exact hc
  | getCached camId₀ => exact ⟨hnd, hdet⟩
  | getSnapshot camId₀ now => exact ⟨hnd, hdet⟩

theorem reachable_pendingInv {s : SysState} (h : Reachable s) : PendingInv s := by
  induction h with
  | init => exact ⟨List.nodup_nil, by intro e he; simp [initState] at he⟩
  | step s e hr ih => exact pendingInv_step e ih

theorem mapGet_mapDelete_self {α : Type} {k : String} {m : List (String × α)}
    (hnd : (m.map Prod.fst).Nodup) : mapGet k (mapDelete k m) = none := by
  cases hq : mapGet k (mapDelete k m) with
  | none => rfl
  | some v => exact absurd rfl (mem_mapDelete_key_ne hnd (mapGet_mem hq))

/-- **C1.** For every logical key (a coordinate pair rendered by
`toFixed(4)` for list queries, `detail_`-prefixed camera id for detail
queries), at every reachable state: (1) the pending-request table never
registers two in-flight fetches for the same key; (2,3) a caller invoking
`fetchCamerasByCoordinate` or `fetchCameraDetail` while a request for its
key is in flight changes nothing (in particular initiates no proxy fetch)
and receives the registered operation's own promise — so all N concurrent
callers for one key hold the same promise and observe the same settlement
(same success value or same failure); (4,5) a caller invoking with no
request in flight initiates exactly one proxy fetch and registers its key;
(6,7) completion deregisters the key unconditionally, on error (failure)
as well as on a page payload (success). -/
theorem coalescer_single_flight {s : SysState} (hs : Reachable s) :
    ((s.pending.map Prod.fst).Nodup) ∧
    (∀ lat lon p, mapGet (listKey lat lon) s.pending = some p →
      step s (Event.invokeList lat lon) = (s, StepObs.joined p.opId)) ∧
    (∀ camId op,
      mapGet (detailKey camId) s.pending = some { opId := op, kind := OpKind.detail camId } →
      step s (Event.invokeDetail camId) = (s, StepObs.joined op)) ∧
    (∀ lat lon, mapGet (listKey lat lon) s.pending = none →
      (step s (Event.invokeList lat lon)).1.fetches = s.fetches + 1 ∧
      mapGet (listKey lat lon) (step s (Event.invokeList lat lon)).1.pending =
        some { opId := s.nextOp, kind := OpKind.list }) ∧
    (∀ camId, mapGet camId s.coordCache = none →
      mapGet (detailKey camId) s.pending = none →
      (step s (Event.invokeDetail camId)).1.fetches = s.fetches + 1 ∧
      mapGet (detailKey camId) (step s (Event.invokeDetail camId)).1.pending =
        some { opId := s.nextOp, kind := OpKind.detail camId }) ∧
    (∀ key op items,
      mapGet key s.pending = some { opId := op, kind := OpKind.list } →
      mapGet key (step s (Event.complete key FetchOutcome.err)).1.pending = none ∧
      mapGet key (step s (Event.complete key (FetchOutcome.listPage items))).1.pending = none) ∧
    (∀ key op camId d,
      mapGet key s.pending = some { opId := op, kind := OpKind.detail camId } →
      mapGet key (step s (Event.complete key FetchOutcome.err)).1.pending = none ∧
      mapGet key (step s (Event.complete key (FetchOutcome.detailPage d))).1.pending = none) := by
  obtain ⟨hnd, hdet⟩ := reachable_pendingInv hs
  refine ⟨hnd, ?_, ?_, ?_, ?_, ?_, ?_⟩
  · intro lat lon p hp
    exact step_invokeList_join hp
  · intro camId op hp
    have hc : mapGet camId s.coordCache = none :=
      (hdet (detailKey camId, { opId := op, kind := OpKind.detail camId })
        (mapGet_mem hp) camId rfl).2
    exact step_invokeDetail_join hc hp
  · intro lat lon hp
    rw [step_invokeList_start hp]
    exact ⟨rfl, mapGet_mapSet_self _ _⟩
  · intro camId hc hp
    rw [step_invokeDetail_start hc hp]
    exact ⟨rfl, mapGet_mapSet_self _ _⟩
  · intro key op items hp
    constructor
    · rw [step_complete_list_err hp]
      exact mapGet_mapDelete_self hnd
    · rw [step_complete_list_page hp]
      exact mapGet_mapDelete_self hnd
  · intro key op camId d hp
    constructor
    · rw [step_complete_detail_err hp]
      exact mapGet_mapDelete_self hnd
    · cases ht : (truthyOpt (parseCameraDetailHTML d).lat &&
                  truthyOpt (parseCameraDetailHTML d).lon) with
      | true =>
        rw [step_complete_detail_page_pos hp ht]
        exact mapGet_mapDelete_self hnd
      | false =>
        rw [step_complete_detail_page_neg hp ht]
        exact mapGet_mapDelete_self hnd

/-- Witness for C1 at a concrete reachable state: after one
`fetchCameraDetail("A")` started operation 0, a second concurrent caller
for key `detail_A` changes nothing and joins operation 0. -/
theorem coalescer_single_flight_witness :
    step (step initState (Event.invokeDetail "A")).1 (Event.invokeDetail "A") =
      ((step initState (Event.invokeDetail "A")).1, StepObs.joined 0) :=
  (coalescer_single_flight
    (Reachable.step initState (Event.invokeDetail "A") Reachable.init)).2.2.1
    "A" 0 (by decide)

/-- **C6.** At every reachable state, every operation of the module
preserves every detail-cache entry exactly: once an id is in the detail
cache (`coordCache`), the record stored under it — in particular its
`lat` and `lon` — never changes for the lifetime of the session.
Moreover a repeated `fetchCameraDetail` for a cached id returns the
cached record and performs no write at all (the whole state, both caches
and the pending table included, is unchanged) and no fetch. -/
theorem detail_cache_immutable {s : SysState} (hs : Reachable s) :
    (∀ e camId r, mapGet camId s.coordCache = some r →
      mapGet camId ((step s e).1).coordCache = some r) ∧
    (∀ camId r, mapGet camId s.coordCache = some r →
      step s (Event.invokeDetail camId) = (s, StepObs.cachedHit r)) := by
  obtain ⟨hnd, hdet⟩ := reachable_pendingInv hs
  constructor
  · intro e camId r hr
    cases e with
    | invokeList lat lon =>
      cases hp : mapGet (listKey lat lon) s.pending with
      | some p => rw [step_invokeList_join hp]; exact hr
      | none => rw [step_invokeList_start hp]; exact hr
    | invokeDetail camId₀ =>
      cases hc : mapGet camId₀ s.coordCache with
      | some r₀ => rw [step_invokeDetail_hit hc]; exact hr
      | none =>
        cases hp : mapGet (detailKey camId₀) s.pending with
        | some p => rw [step_invokeDetail_join hc hp]; exact hr
        | none => rw [step_invokeDetail_start hc hp]; exact hr
    | complete key outcome =>
      cases hp : mapGet key s.pending with
      | none => rw [step_complete_missing hp]; exact hr
      | some p =>
        obtain ⟨op, kind⟩ := p
        cases kind with
        | list =>
          cases outcome with
          | err => rw [step_complete_list_err hp]; exact hr
          | listPage items => rw [step_complete_list_page hp]; exact hr
          | detailPage d => rw [step_complete_list_mismatch hp]; exact hr
        | detail camId₁ =>
          cases outcome with
          | err => rw [step_complete_detail_err hp]; exact hr
          | listPage items => rw [step_complete_detail_mismatch hp]; exact hr
          | detailPage d =>
            cases ht : (truthyOpt (parseCameraDetailHTML d).lat &&
                        truthyOpt (parseCameraDetailHTML d).lon) with
            | false => rw [step_complete_detail_page_neg hp ht]; exact hr
            | true =>
              rw [step_complete_detail_page_pos hp ht]
              have hc₁ : mapGet camId₁ s.coordCache = none :=
                (hdet (key, { opId := op, kind := OpKind.detail camId₁ })
                  (mapGet_mem hp) camId₁ rfl).2
              have hne : camId ≠ camId₁ := by
                intro heq
                rw [heq, hc₁] at hr
                exact Option.noConfusion hr
              show mapGet camId (mapSet camId₁ _ s.coordCache) = some r
              rw [mapGet_mapSet_ne hne]
              exact hr
    | getCached camId₀ => exact hr
    | getSnapshot camId₀ now => exact hr
  · intro camId r hr
    exact step_invokeDetail_hit hr

/-- Witness for C6 at a concrete reachable state: after resolving detail
for id `A`, a list completion for another key and a repeated
`fetchCameraDetail("A")` both leave the cached record for `A` intact. -/
theorem detail_cache_immutable_witness :
    (let s₂ := (step (step initState (Event.invokeDetail "A")).1
      (Event.complete (detailKey "A") (FetchOutcome.detailPage
        { divs := ["緯度: 22.6273", "經度: 120.3014"], h1 := none, videoObj := none }))).1
     mapGet "A" ((step s₂ (Event.invokeList 1 2)).1).coordCache =
       some (mkCameraData "A" (parseCameraDetailHTML
        { divs := ["緯度: 22.6273", "經度: 120.3014"], h1 := none, videoObj := none }))) :=
  (detail_cache_immutable
    (Reachable.step _ (Event.complete (detailKey "A") (FetchOutcome.detailPage
        { divs := ["緯度: 22.6273", "經度: 120.3014"], h1 := none, videoObj := none }))
      (Reachable.step initState (Event.invokeDetail "A") Reachable.init))).1
    (Event.invokeList 1 2) "A" _ (by decide)

theorem mergeSummaries_cons (cache : List (String × CameraRec)) (cam : CameraRec)
    (rest : List CameraRec) :
    mergeSummaries cache (cam :: rest) =
      mergeSummaries (if mapHas cam.id cache then cache else mapSet cam.id cam cache) rest := by
  rw [mergeSummaries, List.foldl_cons]
  rfl

theorem mapGet_mergeSummaries {i : String} {v : CameraRec}
    (cams : List CameraRec) {cache : List (String × CameraRec)}
    (h : mapGet i cache = some v) :
    mapGet i (mergeSummaries cache cams) = some v := by
  induction cams generalizing cache with
  | nil => exact h
  | cons cam rest ih =>
    rw [mergeSummaries_cons]
    split
    · exact ih h
    · next hhas =>
      apply ih
      have hne : i ≠ cam.id := by
        intro heq
        rw [mapHas, ← heq, h] at hhas
        exact hhas (by rfl)
      rw [mapGet_mapSet_ne hne]
      exact h

theorem mapHas_mergeSummaries {i : String}
    (cams : List CameraRec) {cache : List (String × CameraRec)}
    (h : mapHas i cache = true) :
    mapHas i (mergeSummaries cache cams) = true := by
  rw [mapHas] at h
  cases hg : mapGet i cache with
  | none => rw [hg] at h; exact absurd h (by simp)
  | some v => rw [mapHas, mapGet_mergeSummaries cams hg]; rfl

theorem mapHas_mergeSummaries_mem {cache : List (String × CameraRec)}
    {cams : List CameraRec} {cam : CameraRec} (h : cam ∈ cams) :
    mapHas cam.id (mergeSummaries cache cams) = true := by
  induction cams generalizing cache with
  | nil => exact absurd h (List.not_mem_nil cam)
  | cons cam₀ rest ih =>
    rw [mergeSummaries_cons]
    rcases List.mem_cons.mp h with h | h
    · subst h
      apply mapHas_mergeSummaries
      split
      · next hhas => exact hhas
      · rw [mapHas, mapGet_mapSet_self]; rfl
    · exact ih h

theorem mergeSummaries_of_all_present {cams : List CameraRec} :
    ∀ {cache : List (String × CameraRec)},
    (∀ cam ∈ cams, mapHas cam.id cache = true) → mergeSummaries cache cams = cache := by
  induction cams with
  | nil => intro cache h; rfl
  | cons cam rest ih =>
    intro cache h
    rw [mergeSummaries_cons, if_pos (h cam (List.mem_cons_self _ _))]
    exact ih (fun c hc => h c (List.mem_cons_of_mem _ hc))

/-- **C5.** The summary-cache merge performed by
`fetchCamerasByCoordinate` (conjunct 3 states that the list-completion
step merges via `mergeSummaries`) never overwrites an entry already
present for an id — first-seen records win (conjunct 1) — and merging
the same parsed summary list a second time leaves the summary cache
unchanged, content and hence size (conjunct 2: idempotence). -/
theorem summary_merge_first_seen_wins_idempotent :
    (∀ (cache : List (String × CameraRec)) (cams : List CameraRec) i v,
      mapGet i cache = some v → mapGet i (mergeSummaries cache cams) = some v) ∧
    (∀ (cache : List (String × CameraRec)) (cams : List CameraRec),
      mergeSummaries (mergeSummaries cache cams) cams = mergeSummaries cache cams) ∧
    (∀ (s : SysState) key op items,
      mapGet key s.pending = some { opId := op, kind := OpKind.list } →
      (step s (Event.complete key (FetchOutcome.listPage items))).1.cameraCache =
        mergeSummaries s.cameraCache (parseCameraListHTML items)) := by
  refine ⟨?_, ?_, ?_⟩
  · intro cache cams i v h
    exact mapGet_mergeSummaries cams h
  · intro cache cams
    exact mergeSummaries_of_all_present (fun cam hc => mapHas_mergeSummaries_mem hc)
  · intro s key op items hp
    rw [step_complete_list_page hp]

/-- Witness for C5: a concrete cache entry for id `A1` survives a merge
that carries a different record for `A1` (with hypotheses discharged at
that concrete input). -/
theorem summary_merge_first_seen_wins_idempotent_witness :
    mapGet "A1"
      (mergeSummaries [("A1", ⟨"A1", "first", "s1", "", none, none⟩)]
        [⟨"A1", "second", "s2", "l2", none, none⟩]) =
      some (⟨"A1", "first", "s1", "", none, none⟩ : CameraRec) :=
  summary_merge_first_seen_wins_idempotent.1 _ _ "A1" _ (by decide)

/-- The latitude value a single `div` contributes, if any:
`text.trim().match(/^緯度:\s*([\d.]+)/)` parsed with `parseFloat`. -/
def latExtract (t : String) : Option JSNum :=
  (matchCoord latLabel (trimChars t.data)).map parseFloatDD

/-- The longitude value a single `div` contributes, if any. -/
def lonExtract (t : String) : Option JSNum :=
  (matchCoord lonLabel (trimChars t.data)).map parseFloatDD

theorem detailScanStep_eq (acc : Option JSNum × Option JSNum) (t : String) :
    detailScanStep acc t = ((latExtract t).or acc.1, (lonExtract t).or acc.2) := by
  cases h₁ : matchCoord latLabel (trimChars t.data) <;>
    cases h₂ : matchCoord lonLabel (trimChars t.data) <;>
      simp [detailScanStep, latExtract, lonExtract, h₁, h₂, Option.or]

theorem findSome?_append_or {α β : Type} (f : α → Option β) (l₁ l₂ : List α) :
    (l₁ ++ l₂).findSome? f = (l₁.findSome? f).or (l₂.findSome? f) := by
  induction l₁ with
  | nil => rfl
  | cons x rest ih =>
    rw [List.cons_append, List.findSome?_cons, List.findSome?_cons]
    cases f x with
    | some v => rfl
    | none => exact ih

theorem foldl_or_extract {α β : Type} (f : α → Option β) (l : List α) :
    ∀ a, l.foldl (fun acc t => (f t).or acc) a = (l.reverse.findSome? f).or a := by
  induction l with
  | nil => intro a; rfl
  | cons t rest ih =>
    intro a
    rw [List.foldl_cons, ih, List.reverse_cons, findSome?_append_or]
    cases hr : rest.reverse.findSome? f with
    | some v => rfl
    | none => cases hf : f t <;> simp [List.findSome?_cons, hf, Option.or]

theorem foldl_detailScanStep (l : List String) :
    ∀ a b, l.foldl detailScanStep (a, b) =
      (l.foldl (fun acc t => (latExtract t).or acc) a,
       l.foldl (fun acc t => (lonExtract t).or acc) b) := by
  induction l with
  | nil => intro a b; rfl
  | cons t rest ih =>
    intro a b
    rw [List.foldl_cons, detailScanStep_eq, List.foldl_cons, List.foldl_cons]
    exact ih _ _

/-- **C3 (amended).** The `forEach` loop of `parseCameraDetailHTML`
reassigns the coordinate on every matching container, so the value
returned for `lat` (resp. `lon`) is the one parsed from the **last**
matching container in document order — the first matching occurrence of
each label is what is overwritten, not what wins. -/
theorem detail_parser_last_match_wins (d : DetailDoc) :
    (parseCameraDetailHTML d).lat = d.divs.reverse.findSome? latExtract ∧
    (parseCameraDetailHTML d).lon = d.divs.reverse.findSome? lonExtract := by
  have h := foldl_detailScanStep d.divs none none
  have h₁ : (d.divs.foldl detailScanStep (none, none)).1 =
      d.divs.foldl (fun acc t => (latExtract t).or acc) none := by rw [h]
  have h₂ : (d.divs.foldl detailScanStep (none, none)).2 =
      d.divs.foldl (fun acc t => (lonExtract t).or acc) none := by rw [h]
  constructor
  · show (d.divs.foldl detailScanStep (none, none)).1 = _
    rw [h₁, foldl_or_extract]
    cases d.divs.reverse.findSome? latExtract <;> rfl
  · show (d.divs.foldl detailScanStep (none, none)).2 = _
    rw [h₂, foldl_or_extract]
    cases d.divs.reverse.findSome? lonExtract <;> rfl

/-- Counterexample to **C3 as stated**: a detail page whose two
containers both carry the latitude label parses to the value of the
second (last) container, `2.5`, not the first, `1.5`. -/
theorem detail_parser_first_match_cex :
    (parseCameraDetailHTML
        { divs := ["緯度: 1.5", "緯度: 2.5"], h1 := none, videoObj := none }).lat =
      some (JSNum.num (Rat.divInt 5 2)) ∧
    latExtract "緯度: 1.5" = some (JSNum.num (Rat.divInt 3 2)) ∧
    JSNum.num (Rat.divInt 5 2) ≠ JSNum.num (Rat.divInt 3 2) := by decide

/-- Counterexample to **C2 as stated**: the page text `緯度: 0` parses to
latitude `0` — a non-null number — and `經度: 120.3014` to a non-null
longitude, yet `fetchCameraDetail` takes the falsy branch
(`detail.lat && detail.lon` is false at `0`), returns `null` and caches
nothing. -/
theorem detail_resolution_nonnull_cex :
    (parseCameraDetailHTML
        { divs := ["緯度: 0", "經度: 120.3014"], h1 := none, videoObj := none }).lat =
      some (JSNum.num (Rat.divInt 0 1)) ∧
    (parseCameraDetailHTML
        { divs := ["緯度: 0", "經度: 120.3014"], h1 := none, videoObj := none }).lon =
      some (JSNum.num (Rat.divInt 1203014 10000)) ∧
    JSNum.num (Rat.divInt 1203014 10000) ≠ JSNum.num 0 ∧
    (step (step initState (Event.invokeDetail "A")).1
        (Event.complete (detailKey "A") (FetchOutcome.detailPage
          { divs := ["緯度: 0", "經度: 120.3014"], h1 := none, videoObj := none }))).2 =
      StepObs.detailDone (some none) ∧
    (step (step initState (Event.invokeDetail "A")).1
        (Event.complete (detailKey "A") (FetchOutcome.detailPage
          { divs := ["緯度: 0", "經度: 120.3014"], h1 := none, videoObj := none }))).1.coordCache =
      [] ∧
    (step (step initState (Event.invokeDetail "A")).1
        (Event.complete (detailKey "A") (FetchOutcome.detailPage
          { divs := ["緯度: 0", "經度: 120.3014"], h1 := none, videoObj := none }))).1.cameraCache =
      [] := by decide

/-- **C2 (amended).** For every camera id and parsed detail page: if both
parsed coordinates are **truthy** (non-null, non-zero, non-NaN numbers),
the pending detail operation's completion constructs the `CameraDetail`
record `mkCameraData`, stores it in the detail cache under the id and
returns it; if either coordinate is falsy (null, `0` or `NaN`), it
returns `null` — not an error — and leaves both caches exactly as they
were. -/
theorem detail_resolution_truthy_cached (s : SysState) (key : String) (op : ℕ)
    (camId : String) (d : DetailDoc)
    (hp : mapGet key s.pending = some { opId := op, kind := OpKind.detail camId }) :
    ((truthyOpt (parseCameraDetailHTML d).lat &&
      truthyOpt (parseCameraDetailHTML d).lon) = true →
      (step s (Event.complete key (FetchOutcome.detailPage d))).2 =
        StepObs.detailDone (some (some (mkCameraData camId (parseCameraDetailHTML d)))) ∧
      mapGet camId (step s (Event.complete key (FetchOutcome.detailPage d))).1.coordCache =
        some (mkCameraData camId (parseCameraDetailHTML d))) ∧
    ((truthyOpt (parseCameraDetailHTML d).lat &&
      truthyOpt (parseCameraDetailHTML d).lon) = false →
      (step s (Event.complete key (FetchOutcome.detailPage d))).2 =
        StepObs.detailDone (some none) ∧
      (step s (Event.complete key (FetchOutcome.detailPage d))).1.coordCache = s.coordCache ∧
      (step s (Event.complete key (FetchOutcome.detailPage d))).1.cameraCache =
        s.cameraCache) := by
  constructor
  · intro ht
    rw [step_complete_detail_page_pos hp ht]
    exact ⟨rfl, mapGet_mapSet_self _ _⟩
  · intro ht
    rw [step_complete_detail_page_neg hp ht]
    exact ⟨rfl, rfl, rfl⟩

/-- Witness for C2 (amended) at a concrete state with a pending detail
operation for id `A` and a page carrying truthy coordinates. -/
theorem detail_resolution_truthy_cached_witness :
    mapGet "A" (step (step initState (Event.invokeDetail "A")).1
        (Event.complete (detailKey "A") (FetchOutcome.detailPage
          { divs := ["緯度: 22.6273", "經度: 120.3014"], h1 := none, videoObj := none }))).1.coordCache =
      some (mkCameraData "A" (parseCameraDetailHTML
        { divs := ["緯度: 22.6273", "經度: 120.3014"], h1 := none, videoObj := none })) :=
  ((detail_resolution_truthy_cached (step initState (Event.invokeDetail "A")).1
      (detailKey "A") 0 "A"
      { divs := ["緯度: 22.6273", "經度: 120.3014"], h1 := none, videoObj := none }
      (by decide)).1 (by decide)).2

/-- Counterexample to **C4 as stated**: a summary entry for `A1` holds
the non-empty `liveFeedUrl` value `old-live` (from the list page's
lazy-load attribute); a successful detail resolution for `A1` whose page
advertises `new-live` **overwrites** it — the enrichment condition tests
the truthiness of the newly parsed value, not the emptiness of the
pre-existing one. -/
theorem summary_enrichment_preserve_cex :
    ((mapGet "A1" (step (step initState (Event.invokeList 1 2)).1
        (Event.complete (listKey 1 2) (FetchOutcome.listPage
          [{ link := some (some "/cam/A1"), img := some (some "s1.jpg", some "old-live"),
             desc := none }]))).1.cameraCache).map CameraRec.liveFeedUrl = some "old-live") ∧
    "old-live" ≠ "" ∧
    ((mapGet "A1" (step (step (step (step initState (Event.invokeList 1 2)).1
        (Event.complete (listKey 1 2) (FetchOutcome.listPage
          [{ link := some (some "/cam/A1"), img := some (some "s1.jpg", some "old-live"),
             desc := none }]))).1
        (Event.invokeDetail "A1")).1
        (Event.complete (detailKey "A1") (FetchOutcome.detailPage
          { divs := ["緯度: 22.6273", "經度: 120.3014"], h1 := none,
            videoObj := some (some "new-live") }))).1.cameraCache).map CameraRec.liveFeedUrl =
      some "new-live") ∧
    some "new-live" ≠ some "old-live" := by decide

/-- **C4 (amended).** On a successful detail resolution for an id present
in the summary cache, the summary entry is rewritten in place as
follows: `lat`/`lon` are assigned the parsed coordinates, and
`liveFeedUrl`/`name` are overwritten exactly when the **newly learned**
value is non-empty — a non-empty new value replaces even a non-empty
pre-existing one, while an empty new value leaves the old one in place.
Every other entry of the summary cache, and the entry's remaining fields
(`id`, `snapshotUrl`), are unchanged; entries are never removed, and an
id absent from the summary cache leaves the cache untouched. -/
theorem summary_enrichment_new_truthy_wins :
    (∀ (s : SysState) key op camId d,
      mapGet key s.pending = some { opId := op, kind := OpKind.detail camId } →
      (truthyOpt (parseCameraDetailHTML d).lat &&
       truthyOpt (parseCameraDetailHTML d).lon) = true →
      (step s (Event.complete key (FetchOutcome.detailPage d))).1.cameraCache =
        enrichSummary s.cameraCache camId (parseCameraDetailHTML d)) ∧
    (∀ cache camId det ex, mapGet camId cache = some ex →
      mapGet camId (enrichSummary cache camId det) =
        some { ex with
               lat := det.lat
               lon := det.lon
               liveFeedUrl := if det.liveFeedUrl ≠ "" then det.liveFeedUrl else ex.liveFeedUrl
               name := if det.name ≠ "" then det.name else ex.name }) ∧
    (∀ cache camId det i, i ≠ camId →
      mapGet i (enrichSummary cache camId det) = mapGet i cache) ∧
    (∀ cache camId det, mapGet camId cache = none →
      enrichSummary cache camId det = cache) := by
  refine ⟨?_, ?_, ?_, ?_⟩
  · intro s key op camId d hp ht
    rw [step_complete_detail_page_pos hp ht]
  · intro cache camId det ex hex
    rw [enrichSummary, hex]
    exact mapGet_mapSet_self _ _
  · intro cache camId det i hne
    rw [enrichSummary]
    cases hg : mapGet camId cache with
    | none => rfl
    | some ex => exact mapGet_mapSet_ne hne _ _
  · intro cache camId det hg
    rw [enrichSummary, hg]

/-- Witness for C4 (amended): enriching a concrete one-entry cache for
`A1` rewrites that entry with the new truthy values. -/
theorem summary_enrichment_new_truthy_wins_witness :
    mapGet "A1" (enrichSummary [("A1", ⟨"A1", "A1", "s1", "old-live", none, none⟩)] "A1"
        { lat := some (JSNum.num 1), lon := some (JSNum.num 2), name := "",
          liveFeedUrl := "new-live" }) =
      some ⟨"A1", "A1", "s1", "new-live", some (JSNum.num 1), some (JSNum.num 2)⟩ := by
  have h := summary_enrichment_new_truthy_wins.2.1
    [("A1", ⟨"A1", "A1", "s1", "old-live", none, none⟩)] "A1"
    { lat := some (JSNum.num 1), lon := some (JSNum.num 2), name := "",
      liveFeedUrl := "new-live" }
    ⟨"A1", "A1", "s1", "old-live", none, none⟩ (by decide)
  rw [h]
  decide

/-- Counterexample to **C7 as stated**: for a camera whose detail page
publishes no coordinates, the first call resolves to `null` and caches
nothing, so a second sequential `fetchCameraDetail` for the same id
starts a **second** proxy fetch — two fetches, not exactly one. -/
theorem detail_two_calls_one_fetch_cex :
    (step (step initState (Event.invokeDetail "A")).1
        (Event.complete (detailKey "A") (FetchOutcome.detailPage
          { divs := ["no coordinates here"], h1 := none, videoObj := none }))).1.fetches = 1 ∧
    (step (step (step initState (Event.invokeDetail "A")).1
        (Event.complete (detailKey "A") (FetchOutcome.detailPage
          { divs := ["no coordinates here"], h1 := none, videoObj := none }))).1
        (Event.invokeDetail "A")).2 = StepObs.started 1 ∧
    (step (step (step initState (Event.invokeDetail "A")).1
        (Event.complete (detailKey "A") (FetchOutcome.detailPage
          { divs := ["no coordinates here"], h1 := none, videoObj := none }))).1
        (Event.invokeDetail "A")).1.fetches = 2 ∧
    (2 : ℕ) ≠ 1 := by decide

/-- **C7 (amended).** For a camera id not yet in the detail cache and
with no request in flight, whose detail page resolves successfully (both
coordinates truthy): the first `fetchCameraDetail` performs exactly one
proxy fetch, and once it completes, a second sequential call returns the
value from the detail cache with no state change and no new fetch —
exactly one fetch across both calls.  (When the first resolution yields
`null` — coordinates absent or falsy — nothing is cached and the second
call fetches again, as the counterexample shows.) -/
theorem detail_second_call_cache_hit (s : SysState) (camId : String) (d : DetailDoc)
    (hc : mapGet camId s.coordCache = none)
    (hp : mapGet (detailKey camId) s.pending = none)
    (ht : (truthyOpt (parseCameraDetailHTML d).lat &&
           truthyOpt (parseCameraDetailHTML d).lon) = true) :
    (step s (Event.invokeDetail camId)).1.fetches = s.fetches + 1 ∧
    (step (step s (Event.invokeDetail camId)).1
        (Event.complete (detailKey camId) (FetchOutcome.detailPage d))).1.fetches =
      s.fetches + 1 ∧
    step (step (step s (Event.invokeDetail camId)).1
        (Event.complete (detailKey camId) (FetchOutcome.detailPage d))).1
        (Event.invokeDetail camId) =
      ((step (step s (Event.invokeDetail camId)).1
          (Event.complete (detailKey camId) (FetchOutcome.detailPage d))).1,
       StepObs.cachedHit (mkCameraData camId (parseCameraDetailHTML d))) := by
  rw [step_invokeDetail_start hc hp]
  have hp₁ : mapGet (detailKey camId)
      (mapSet (detailKey camId) { opId := s.nextOp, kind := OpKind.detail camId } s.pending) =
      some { opId := s.nextOp, kind := OpKind.detail camId } := mapGet_mapSet_self _ _
  refine ⟨rfl, ?_, ?_⟩
  · rw [step_complete_detail_page_pos hp₁ ht]
  · rw [step_complete_detail_page_pos hp₁ ht]
    exact step_invokeDetail_hit (mapGet_mapSet_self _ _)

/-- Witness for C7 (amended) at the initial state, id `A` and a page
with truthy coordinates. -/
theorem detail_second_call_cache_hit_witness :
    step (step (step initState (Event.invokeDetail "A")).1
        (Event.complete (detailKey "A") (FetchOutcome.detailPage
          { divs := ["緯度: 22.6273", "經度: 120.3014"], h1 := none, videoObj := none }))).1
        (Event.invokeDetail "A") =
      ((step (step initState (Event.invokeDetail "A")).1
          (Event.complete (detailKey "A") (FetchOutcome.detailPage
            { divs := ["緯度: 22.6273", "經度: 120.3014"], h1 := none, videoObj := none }))).1,
       StepObs.cachedHit (mkCameraData "A" (parseCameraDetailHTML
         { divs := ["緯度: 22.6273", "經度: 120.3014"], h1 := none, videoObj := none }))) :=
  (detail_second_call_cache_hit initState "A"
    { divs := ["緯度: 22.6273", "經度: 120.3014"], h1 := none, videoObj := none }
    (by decide) (by decide) (by decide)).2.2

/-- What one list container contributes: `none` for a skipped container,
`some` summary for a valid one.  `parseCameraListHTML` is exactly
`filterMap summaryOf` (proved in the C8 theorem below). -/
def summaryOf (item : ListItem) : Option CameraRec :=
  match item.link, item.img with
  | some hrefAttr, some imgAttrs =>
    match matchCamId (hrefAttr.getD "").data with
    | none => none
    | some cid =>
      some { id := String.mk cid
             name := match item.desc with
               | some t => String.mk (trimChars t.data)
               | none => String.mk cid
             snapshotUrl := match imgAttrs.1 with
               | some s => if s ≠ "" then s else snapshotPath (String.mk cid)
               | none => snapshotPath (String.mk cid)
             liveFeedUrl := imgAttrs.2.getD ""
             lat := none
             lon := none }
  | _, _ => none

theorem listScanStep_eq (cams : List CameraRec) (item : ListItem) :
    listScanStep cams item =
      match summaryOf item with
      | some c => cams ++ [c]
      | none => cams := by
  cases hl : item.link with
  | none => simp [listScanStep, summaryOf, hl]
  | some hrefAttr =>
    cases hi : item.img with
    | none => simp [listScanStep, summaryOf, hl, hi]
    | some imgAttrs =>
      cases hm : matchCamId (hrefAttr.getD "").data with
      | none => simp [listScanStep, summaryOf, hl, hi, hm]
      | some cid => simp [listScanStep, summaryOf, hl, hi, hm]

theorem foldl_listScanStep (items : List ListItem) :
    ∀ acc, items.foldl listScanStep acc = acc ++ items.filterMap summaryOf := by
  induction items with
  | nil => intro acc; simp
  | cons item rest ih =>
    intro acc
    rw [List.foldl_cons, listScanStep_eq]
    cases hs : summaryOf item with
    | none => rw [ih, List.filterMap_cons, hs]
    | some c =>
      rw [ih, List.filterMap_cons, hs, List.append_assoc]
      rfl

/-- **C8.** `parseCameraListHTML` returns exactly one `CameraSummary` per
container contributing a `summaryOf` value, in document order
(conjunct 1: the parser is `filterMap summaryOf`).  A container missing
its link element (conjunct 2) or its image element (conjunct 3), or
whose link href does not match the `/cam/<id>` pattern (conjunct 4), is
skipped without error.  A valid container yields a summary whose `id` is
the pattern's capture, whose `name` falls back to the id when no caption
element is present, whose `snapshotUrl` falls back to the deterministic
`SNAPSHOT_BASE` URL built from the id when the image's `src` attribute
is absent, and whose `liveFeedUrl` defaults to the empty string when the
lazy-load `data-src` attribute is absent (conjunct 5). -/
theorem list_parser_one_summary_per_valid_container :
    (∀ items, parseCameraListHTML items = items.filterMap summaryOf) ∧
    (∀ item, item.link = none → summaryOf item = none) ∧
    (∀ item, item.img = none → summaryOf item = none) ∧
    (∀ item hrefAttr, item.link = some hrefAttr →
      matchCamId (hrefAttr.getD "").data = none → summaryOf item = none) ∧
    (∀ item hrefAttr imgAttrs cid, item.link = some hrefAttr → item.img = some imgAttrs →
      matchCamId (hrefAttr.getD "").data = some cid →
      ∃ rec, summaryOf item = some rec ∧ rec.id = String.mk cid ∧
        (item.desc = none → rec.name = String.mk cid) ∧
        (imgAttrs.1 = none → rec.snapshotUrl = snapshotPath (String.mk cid)) ∧
        (imgAttrs.2 = none → rec.liveFeedUrl = "")) := by
  refine ⟨?_, ?_, ?_, ?_, ?_⟩
  · intro items
    rw [parseCameraListHTML, foldl_listScanStep]
    rfl
  · intro item hl
    simp [summaryOf, hl]
  · intro item hi
    cases hl : item.link <;> simp [summaryOf, hl, hi]
  · intro item hrefAttr hl hm
    cases hi : item.img <;> simp [summaryOf, hl, hi, hm]
  · intro item hrefAttr imgAttrs cid hl hi hm
    refine ⟨{ id := String.mk cid
              name := match item.desc with
                | some t => String.mk (trimChars t.data)
                | none => String.mk cid
              snapshotUrl := match imgAttrs.1 with
                | some s => if s ≠ "" then s else snapshotPath (String.mk cid)
                | none => snapshotPath (String.mk cid)
              liveFeedUrl := imgAttrs.2.getD ""
              lat := none
              lon := none }, ?_, rfl, ?_, ?_, ?_⟩
    · simp [summaryOf, hl, hi, hm]
    · intro hd; simp [hd]
    · intro hsrc; simp [hsrc]
    · intro hds; simp [hds, Option.getD]

/-- Witness for C8 at the spec's fixture container
`{href:"/cam/B2", img data-src:"live2", no src}`: its summary exists,
has id `B2`, name falling back to the id, the deterministic snapshot
URL, and (for the absent-attribute clause applied to a container with no
`data-src`) the theorem's hypotheses are discharged concretely. -/
theorem list_parser_one_summary_per_valid_container_witness :
    ∃ rec, summaryOf ⟨some (some "/cam/B2"), some (none, some "live2"), none⟩ = some rec ∧
      rec.id = String.mk "B2".data ∧ rec.name = String.mk "B2".data ∧
      rec.snapshotUrl = snapshotPath (String.mk "B2".data) := by
  obtain ⟨rec, h₁, h₂, h₃, h₄, h₅⟩ :=
    list_parser_one_summary_per_valid_container.2.2.2.2
      ⟨some (some "/cam/B2"), some (none, some "live2"), none⟩
      (some "/cam/B2") (none, some "live2") "B2".data rfl rfl (by decide)
  exact ⟨rec, h₁, h₂, h₃ rfl, h₄ rfl⟩

theorem strData_append (s t : String) : (s ++ t).data = s.data ++ t.data := by
  cases s; cases t; rfl

theorem natReprAux_eq_digits : ∀ (fuel n : ℕ), n ≤ fuel →
    natReprAux fuel n = (Nat.digits 10 n).reverse.map Nat.digitChar := by
  intro fuel
  induction fuel with
  | zero =>
    intro n hn
    interval_cases n
    rw [Nat.digits_zero]
    rfl
  | succ fuel ih =>
    intro n hn
    rw [natReprAux]
    split
    · next h0 => rw [h0, Nat.digits_zero]; rfl
    · next h0 =>
      have hpos : 0 < n := Nat.pos_of_ne_zero h0
      have hdiv : n / 10 ≤ fuel := by
        have : n / 10 < n := Nat.div_lt_self hpos (by norm_num)
        omega
      rw [ih _ hdiv, Nat.digits_def' (by norm_num : (1:ℕ) < 10) hpos,
        List.reverse_cons, List.map_append]
      rfl

theorem digitChar_fin_inj : ∀ a b : Fin 10,
    Nat.digitChar a.val = Nat.digitChar b.val → a = b := by decide

theorem digitChar_inj_lt {a b : ℕ} (ha : a < 10) (hb : b < 10)
    (h : Nat.digitChar a = Nat.digitChar b) : a = b :=
  congrArg Fin.val (digitChar_fin_inj ⟨a, ha⟩ ⟨b, hb⟩ h)

theorem map_digitChar_inj : ∀ (l₁ l₂ : List ℕ), (∀ d ∈ l₁, d < 10) → (∀ d ∈ l₂, d < 10) →
    l₁.map Nat.digitChar = l₂.map Nat.digitChar → l₁ = l₂ := by
  intro l₁
  induction l₁ with
  | nil =>
    intro l₂ h₁ h₂ h
    cases l₂ with
    | nil => rfl
    | cons b bs => exact absurd h (by simp)
  | cons a as ih =>
    intro l₂ h₁ h₂ h
    cases l₂ with
    | nil => exact absurd h (by simp)
    | cons b bs =>
      rw [List.map_cons, List.map_cons] at h
      injection h with hd tl
      rw [digitChar_inj_lt (h₁ a (List.mem_cons_self _ _)) (h₂ b (List.mem_cons_self _ _)) hd,
        ih bs (fun d hd₁ => h₁ d (List.mem_cons_of_mem _ hd₁))
          (fun d hd₂ => h₂ d (List.mem_cons_of_mem _ hd₂)) tl]

theorem natRepr_eq_digits (n : ℕ) :
    natRepr n = if n = 0 then ['0'] else (Nat.digits 10 n).reverse.map Nat.digitChar := by
  rw [natRepr]
  split
  · rfl
  · exact natReprAux_eq_digits n n le_rfl

theorem digits_render_eq_zero {b : ℕ} (hb : b ≠ 0)
    (h : (Nat.digits 10 b).reverse.map Nat.digitChar = ['0']) : False := by
  have hlen : ((Nat.digits 10 b).reverse.map Nat.digitChar).length = 1 := by rw [h]; rfl
  rw [List.length_map, List.length_reverse] at hlen
  obtain ⟨d, hd⟩ := List.length_eq_one.mp hlen
  rw [hd] at h
  have hd10 : d < 10 :=
    Nat.digits_lt_base (by norm_num) (by rw [hd]; exact List.mem_singleton_self d)
  have : d = 0 := by
    apply digitChar_inj_lt hd10 (by norm_num)
    injection h
  apply hb
  have hofd : b = Nat.ofDigits 10 [d] := by rw [← hd, Nat.ofDigits_digits]
  rw [‹d = 0›] at hofd
  simpa [Nat.ofDigits_cons, Nat.ofDigits_nil] using hofd

theorem natRepr_inj {a b : ℕ} (h : natRepr a = natRepr b) : a = b := by
  rw [natRepr_eq_digits, natRepr_eq_digits] at h
  by_cases ha : a = 0 <;> by_cases hb : b = 0
  · rw [ha, hb]
  · rw [if_pos ha, if_neg hb] at h
    exact absurd h.symm (fun hc => digits_render_eq_zero hb hc)
  · rw [if_neg ha, if_pos hb] at h
    exact absurd h (fun hc => digits_render_eq_zero ha hc)
  · rw [if_neg ha, if_neg hb] at h
    have hrev : (Nat.digits 10 a).reverse = (Nat.digits 10 b).reverse :=
      map_digitChar_inj _ _
        (fun d hd => Nat.digits_lt_base (by norm_num) (List.mem_reverse.mp hd))
        (fun d hd => Nat.digits_lt_base (by norm_num) (List.mem_reverse.mp hd)) h
    have hdig : Nat.digits 10 a = Nat.digits 10 b := List.reverse_injective hrev
    rw [← Nat.ofDigits_digits 10 a, ← Nat.ofDigits_digits 10 b, hdig]

/-- **C9.** With `Date.now()` modelled as an explicit clock argument, any
two calls to `getSnapshotUrl` for the same id at distinct clock readings
return URLs that share the deterministic path prefix
`snapshotPath camId` (derived from the id) and differ: each URL embeds
exactly the decimal rendering of its own call's clock reading after
`?t=` — the timestamp is recomputed fresh on every call and never
cached — so distinct readings give distinct cache-busting query values
and hence distinct URLs. -/
theorem snapshot_url_fresh_timestamp (camId : String) (t₁ t₂ : ℕ) (hne : t₁ ≠ t₂) :
    (getSnapshotUrl camId t₁).data = (snapshotPath camId).data ++ ("?t=".data ++ natRepr t₁) ∧
    (getSnapshotUrl camId t₂).data = (snapshotPath camId).data ++ ("?t=".data ++ natRepr t₂) ∧
    natRepr t₁ ≠ natRepr t₂ ∧
    getSnapshotUrl camId t₁ ≠ getSnapshotUrl camId t₂ := by
  have hdata : ∀ t : ℕ, (getSnapshotUrl camId t).data =
      (snapshotPath camId).data ++ ("?t=".data ++ natRepr t) := by
    intro t
    rw [getSnapshotUrl, strData_append, strData_append, List.append_assoc]
    rfl
  have hrne : natRepr t₁ ≠ natRepr t₂ := fun hr => hne (natRepr_inj hr)
  refine ⟨hdata t₁, hdata t₂, hrne, ?_⟩
  intro hurl
  have hd := congrArg String.data hurl
  rw [hdata t₁, hdata t₂] at hd
  exact hrne (List.append_cancel_left (List.append_cancel_left hd))

/-- Witness for C9 at id `A1` and clock readings `1` and `2`. -/
theorem snapshot_url_fresh_timestamp_witness :
    (1 : ℕ) ≠ 2 ∧ getSnapshotUrl "A1" 1 ≠ getSnapshotUrl "A1" 2 :=
  ⟨by decide, (snapshot_url_fresh_timestamp "A1" 1 2 (by decide)).2.2.2⟩

theorem dropWhile_append_all {p : Char → Bool} :
    ∀ (ws l : List Char), (∀ c ∈ ws, p c = true) →
    (ws ++ l).dropWhile p = l.dropWhile p := by
  intro ws
  induction ws with
  | nil => intro l h; rfl
  | cons c cs ih =>
    intro l h
    rw [List.cons_append, List.dropWhile_cons, if_pos (h c (List.mem_cons_self _ _))]
    exact ih l (fun c₁ hc₁ => h c₁ (List.mem_cons_of_mem _ hc₁))

theorem findSome?_eq_none_of_all {α β : Type} (f : α → Option β) :
    ∀ l : List α, (∀ x ∈ l, f x = none) → l.findSome? f = none := by
  intro l
  induction l with
  | nil => intro h; rfl
  | cons x rest ih =>
    intro h
    rw [List.findSome?_cons, h x (List.mem_cons_self _ _)]
    exact ih (fun y hy => h y (List.mem_cons_of_mem _ hy))

/-- **C10.** The coordinate regexes' numeric class `[\d.]+` admits only
unsigned digits and dots, so a label line carrying a signed (negative)
value — label, optional whitespace, then a minus sign — never matches,
for the latitude and the longitude label alike (conjunct 1).
Consequently, a detail page on which no container yields a latitude
match (a camera in the southern hemisphere, every latitude line signed)
parses `lat = null` (conjunct 2), a page on which no container yields a
longitude match (a camera in the western hemisphere, every longitude
line signed) parses `lon = null` (conjunct 3), and in either case the
pending `fetchCameraDetail` operation completes with `null` and modifies
neither cache. -/
theorem negative_coordinates_unmatched :
    (∀ (label ws rest : List Char), (∀ c ∈ ws, isJSWhitespace c = true) →
      matchCoord label (label ++ (ws ++ '-' :: rest)) = none) ∧
    (∀ d : DetailDoc, (∀ t ∈ d.divs, matchCoord latLabel (trimChars t.data) = none) →
      (parseCameraDetailHTML d).lat = none ∧
      (∀ (s : SysState) key op camId,
        mapGet key s.pending = some { opId := op, kind := OpKind.detail camId } →
        (step s (Event.complete key (FetchOutcome.detailPage d))).2 =
          StepObs.detailDone (some none) ∧
        (step s (Event.complete key (FetchOutcome.detailPage d))).1.coordCache =
          s.coordCache ∧
        (step s (Event.complete key (FetchOutcome.detailPage d))).1.cameraCache =
          s.cameraCache)) ∧
    (∀ d : DetailDoc, (∀ t ∈ d.divs, matchCoord lonLabel (trimChars t.data) = none) →
      (parseCameraDetailHTML d).lon = none ∧
      (∀ (s : SysState) key op camId,
        mapGet key s.pending = some { opId := op, kind := OpKind.detail camId } →
        (step s (Event.complete key (FetchOutcome.detailPage d))).2 =
          StepObs.detailDone (some none) ∧
        (step s (Event.complete key (FetchOutcome.detailPage d))).1.coordCache =
          s.coordCache ∧
        (step s (Event.complete key (FetchOutcome.detailPage d))).1.cameraCache =
          s.cameraCache)) := by
  refine ⟨?_, ?_, ?_⟩
  · intro label ws rest hws
    rw [matchCoord,
      if_pos (List.isPrefixOf_iff_prefix.mpr (List.prefix_append label (ws ++ '-' :: rest)))]
    have hdrop : ((label ++ (ws ++ '-' :: rest)).drop label.length).dropWhile isJSWhitespace =
        '-' :: rest := by
      rw [List.drop_left, dropWhile_append_all ws _ hws, List.dropWhile_cons]
      rw [if_neg (by decide)]
    rw [hdrop]
    simp [List.takeWhile_cons, isDigitOrDot]
  · intro d hall
    have hlat : (parseCameraDetailHTML d).lat = none := by
      have h := foldl_detailScanStep d.divs none none
      have h₁ : (d.divs.foldl detailScanStep (none, none)).1 =
          d.divs.foldl (fun acc t => (latExtract t).or acc) none := by rw [h]
      show (d.divs.foldl detailScanStep (none, none)).1 = none
      rw [h₁, foldl_or_extract,
        findSome?_eq_none_of_all latExtract d.divs.reverse
          (fun t ht => by rw [latExtract, hall t (List.mem_reverse.mp ht)]; rfl)]
      rfl
    refine ⟨hlat, ?_⟩
    intro s key op camId hp
    have ht : (truthyOpt (parseCameraDetailHTML d).lat &&
        truthyOpt (parseCameraDetailHTML d).lon) = false := by
      rw [hlat]
      rfl
    rw [step_complete_detail_page_neg hp ht]
    exact ⟨rfl, rfl, rfl⟩
  · intro d hall
    have hlon : (parseCameraDetailHTML d).lon = none := by
      have h := foldl_detailScanStep d.divs none none
      have h₂ : (d.divs.foldl detailScanStep (none, none)).2 =
          d.divs.foldl (fun acc t => (lonExtract t).or acc) none := by rw [h]
      show (d.divs.foldl detailScanStep (none, none)).2 = none
      rw [h₂, foldl_or_extract,
        findSome?_eq_none_of_all lonExtract d.divs.reverse
          (fun t ht => by rw [lonExtract, hall t (List.mem_reverse.mp ht)]; rfl)]
      rfl
    refine ⟨hlon, ?_⟩
    intro s key op camId hp
    have ht : (truthyOpt (parseCameraDetailHTML d).lat &&
        truthyOpt (parseCameraDetailHTML d).lon) = false := by
      rw [hlon]
      exact Bool.and_false _
    rw [step_complete_detail_page_neg hp ht]
    exact ⟨rfl, rfl, rfl⟩

/-- Witness for C10: the concrete lines `緯度: -33.5` and `經度: -74.0`
fail their patterns; a page carrying only a signed latitude parses
`lat = null`; and a western-hemisphere page with an unsigned latitude
`40.7` but a signed longitude `-74.0` parses `lon = null` and, from the
concrete pending state for id `A`, resolves to `null`. -/
theorem negative_coordinates_unmatched_witness :
    matchCoord latLabel (latLabel ++ ([' '] ++ '-' :: "33.5".data)) = none ∧
    matchCoord lonLabel (lonLabel ++ ([' '] ++ '-' :: "74.0".data)) = none ∧
    (parseCameraDetailHTML { divs := ["緯度: -33.5"], h1 := none, videoObj := none }).lat =
      none ∧
    (parseCameraDetailHTML
        { divs := ["緯度: 40.7", "經度: -74.0"], h1 := none, videoObj := none }).lon =
      none ∧
    (step (step initState (Event.invokeDetail "A")).1
        (Event.complete (detailKey "A") (FetchOutcome.detailPage
          { divs := ["緯度: 40.7", "經度: -74.0"], h1 := none, videoObj := none }))).2 =
      StepObs.detailDone (some none) :=
  ⟨negative_coordinates_unmatched.1 latLabel [' '] "33.5".data (by decide),
   negative_coordinates_unmatched.1 lonLabel [' '] "74.0".data (by decide),
   (negative_coordinates_unmatched.2.1
     { divs := ["緯度: -33.5"], h1 := none, videoObj := none } (by decide)).1,
   (negative_coordinates_unmatched.2.2
     { divs := ["緯度: 40.7", "經度: -74.0"], h1 := none, videoObj := none } (by decide)).1,
   ((negative_coordinates_unmatched.2.2
      { divs := ["緯度: 40.7", "經度: -74.0"], h1 := none, videoObj := none } (by decide)).2
     (step initState (Event.invokeDetail "A")).1 (detailKey "A") 0 "A" (by decide)).1⟩
